import Mathlib

/-
Verification development for the cloudops-command-center event-processing
pipeline (backend/modules/lambda/code/event-processor).

Each Python function relevant to the stated properties is shallowly embedded
as an executable Lean definition; timestamps are modelled as integer seconds
since the epoch, DynamoDB items as structures over `String` fields, and
Python dicts as association lists.  Theorems below settle the stated
properties against these embeddings.
-/

set_option maxHeartbeats 1000000

namespace CloudOps

/-! ## Python string helpers

`py_upper` models `str.upper()` and `py_strip` models `str.strip()` for the
ASCII strings this code base manipulates; both are written over the character
list so that concrete instances evaluate by `decide`. -/

def py_upper (s : String) : String := ⟨s.data.map Char.toUpper⟩

def py_strip (s : String) : String :=
  ⟨((s.data.dropWhile Char.isWhitespace).reverse.dropWhile Char.isWhitespace).reverse⟩

/-! ## Timestamps and TTL (storage/dynamodb_handler.py, normalize_and_calculate_ttl)

Timestamps are modelled as seconds since the epoch (`Int`); `_parse_timestamp`
returning `None` for empty/invalid input is modelled by an `Option Int`
argument.  `ttl_days` models the `EVENTS_TABLE_TTL_DAYS` environment variable
(default 180). -/

def SECONDS_PER_DAY : Int := 86400

/-- Embedding of `normalize_and_calculate_ttl` (dynamodb_handler.py lines
50-104): the normalized last-update time falls back to `now`
(`datetime.utcnow()`) when unparseable; the TTL base is `startTime` when it
parses and is strictly later than the last-update time, otherwise the
last-update time; the stored ttl is the base plus `ttl_days` days. -/
def normalize_and_calculate_ttl (last_update_time_input : Option Int)
    (start_time_input : Option Int) (now : Int) (ttl_days : Int) : Int × Int :=
  let last_update_dt := last_update_time_input.getD now
  let ttl_base_dt :=
    match start_time_input with
    | some start_dt => if start_dt > last_update_dt then start_dt else last_update_dt
    | none => last_update_dt
  (last_update_dt, ttl_base_dt + ttl_days * SECONDS_PER_DAY)

/-! ## Counter decrements (storage/dynamodb_handler.py)

Counter values live in the counts table; a missing attribute reads as 0
(`current_item.get(counter, 0)`).  Both decrement sites clamp at zero. -/

/-- Embedding of the negative-update application in `update_live_counts`
(dynamodb_handler.py line 681): `new_value = max(0, current_value + change_value)`. -/
def update_live_counts_negative_value (current_value change_value : Int) : Int :=
  max 0 (current_value + change_value)

/-- Embedding of the TTL-deletion decrement in
`update_live_counts_for_ttl_deletions` (dynamodb_handler.py line 1014):
`new_value = max(0, current_value + change_value)`. -/
def ttl_deletion_counter_value (current_value change_value : Int) : Int :=
  max 0 (current_value + change_value)

/-- One pass of `update_live_counts_for_ttl_deletions` over a single counter:
the stored value is replaced only when the aggregated change is non-zero
(`if change_value != 0`), and the replacement is clamped at zero. -/
def apply_count_change (value change : Int) : Int :=
  if change ≠ 0 then ttl_deletion_counter_value value change else value

theorem foldl_apply_count_change_nonneg :
    ∀ (changes : List Int) (k : Int), 0 ≤ k → 0 ≤ changes.foldl apply_count_change k := by
  intro changes
  induction changes with
  | nil => intro k hk; simpa using hk
  | cons c cs ih =>
      intro k hk
      simp only [List.foldl_cons]
      apply ih
      unfold apply_count_change ttl_deletion_counter_value
      split
      · exact le_max_left 0 (k + c)
      · exact hk

/-! ## LLM analysis post-processing (analysis/bedrock_analyzer.py)

The parsed JSON analysis block is modelled by its `risk_level` entry
(`Option String`, `none` when the key is absent) and the truthiness of its
`critical` entry (`Bool`; `analysis.get("critical", False)`). -/

structure LlmAnalysis where
  risk_level : Option String
  critical : Bool
deriving DecidableEq

/-- Embedding of the normalization block in `analyze_event_with_bedrock`
(bedrock_analyzer.py lines 338-359): when the `risk_level` key is present, the
stripped upper-cased value is matched against the recognized levels
(CRITICAL/SEVERE set the critical flag; HIGH, MEDIUM/MODERATE, LOW are
canonicalized; anything else leaves the stored value untouched), and then a
true `critical` flag with a non-CRITICAL stored level upgrades the level. -/
def normalize_risk_level (analysis : LlmAnalysis) : LlmAnalysis :=
  match analysis.risk_level with
  | none => analysis
  | some rl =>
    let risk_level := py_upper (py_strip rl)
    let analysis1 :=
      if risk_level = "CRITICAL" ∨ risk_level = "SEVERE" then
        { analysis with risk_level := some "CRITICAL", critical := true }
      else if risk_level = "HIGH" then { analysis with risk_level := some "HIGH" }
      else if risk_level = "MEDIUM" ∨ risk_level = "MODERATE" then
        { analysis with risk_level := some "MEDIUM" }
      else if risk_level = "LOW" then { analysis with risk_level := some "LOW" }
      else analysis
    if analysis1.critical = true ∧ analysis1.risk_level ≠ some "CRITICAL" then
      { analysis1 with risk_level := some "CRITICAL" }
    else analysis1

/-! ## Per-account status resolver (aws_clients/health_client.py)

`fetch_per_account_status_batch` is embedded for a single batch of account
ids: the paginated `describe_affected_entities_for_organization` responses
are a list of pages, each a list of entities.  The mutable
`account_statuses` dict is an association list updated in place
(`dict_set`), preserving insertion order as Python dicts do. -/

structure Entity where
  awsAccountId : String
  statusCode : Option String
deriving DecidableEq

/-- Embedding of `map_entity_status_to_event_status` (health_client.py lines
136-171): upper-case the entity status and look it up in the mapping table,
defaulting to "unknown". -/
def map_entity_status_to_event_status (entity_status : String) : String :=
  let s := py_upper entity_status
  if s = "IMPAIRED" then "open"
  else if s = "PENDING" then "open"
  else if s = "UNIMPAIRED" then "closed"
  else if s = "RESOLVED" then "closed"
  else "unknown"

/-- Python dict read `d.get(k)` on an insertion-ordered association list. -/
def dict_get : List (String × String) → String → Option String
  | [], _ => none
  | (k, v) :: rest, a => if k = a then some v else dict_get rest a

/-- Python dict write `d[k] = v`: update in place if present, else append. -/
def dict_set : List (String × String) → String → String → List (String × String)
  | [], k, v => [(k, v)]
  | (k', v') :: rest, k, v =>
      if k' = k then (k, v) :: rest else (k', v') :: dict_set rest k v

/-- Processing of one entity inside the pagination loop (health_client.py
lines 264-292): skip entities without an account id; entities with a truthy
statusCode are mapped and merged with "worst case wins" (an existing "closed"
is upgraded to "open", anything else is kept); entities without a statusCode
record the event-level status if the account has not been seen yet. -/
def process_entity (event_level_status : String) (account_statuses : List (String × String))
    (e : Entity) : List (String × String) :=
  if e.awsAccountId = "" then account_statuses
  else
    match e.statusCode with
    | some s =>
      if s = "" then
        match dict_get account_statuses e.awsAccountId with
        | none => dict_set account_statuses e.awsAccountId event_level_status
        | some _ => account_statuses
      else
        let event_status := map_entity_status_to_event_status s
        match dict_get account_statuses e.awsAccountId with
        | none => dict_set account_statuses e.awsAccountId event_status
        | some current_status =>
            if current_status = "closed" ∧ event_status = "open" then
              dict_set account_statuses e.awsAccountId "open"
            else account_statuses
    | none =>
      match dict_get account_statuses e.awsAccountId with
      | none => dict_set account_statuses e.awsAccountId event_level_status
      | some _ => account_statuses

/-- Early-exit test (health_client.py line 296): all accounts of the batch
have a status and every recorded status is "open". -/
def all_open_early_exit (batch : List String) (account_statuses : List (String × String)) : Bool :=
  account_statuses.length = batch.length &&
    account_statuses.all (fun p => p.2 = "open")

/-- The pagination loop (health_client.py lines 234-307): pages are processed
in order; the `page_count > max_pages` guard stops after 10 pages; after each
page the early-exit optimization stops when every account of the batch is
"open". -/
def process_pages (batch : List String) (event_level_status : String) :
    Nat → List (List Entity) → List (String × String) → List (String × String)
  | _, [], m => m
  | page_count, page :: rest, m =>
      if page_count + 1 > 10 then m
      else
        let m' := page.foldl (process_entity event_level_status) m
        if all_open_early_exit batch m' then m'
        else process_pages batch event_level_status (page_count + 1) rest m'

/-- Number of `describe_affected_entities_for_organization` calls the
pagination loop performs (one per processed page). -/
def process_pages_api_calls (batch : List String) (event_level_status : String) :
    Nat → List (List Entity) → List (String × String) → Nat
  | _, [], _ => 0
  | page_count, page :: rest, m =>
      if page_count + 1 > 10 then 0
      else
        let m' := page.foldl (process_entity event_level_status) m
        if all_open_early_exit batch m' then 1
        else 1 + process_pages_api_calls batch event_level_status (page_count + 1) rest m'

/-- Post-loop fallback (health_client.py lines 310-321): an account with no
entity on any page receives the event-level status. -/
def fill_missing_account (event_level_status : String) (m : List (String × String))
    (a : String) : List (String × String) :=
  match dict_get m a with
  | none => m ++ [(a, event_level_status)]
  | some _ => m

/-- Embedding of `fetch_per_account_status_batch` (health_client.py lines
174-332) for one batch of account ids: a "closed" event-level status
short-circuits to all-closed before any API call; otherwise all entity pages
are processed and accounts with no entity on any page fall back to the
event-level status. -/
def fetch_per_account_status_batch (account_ids : List String)
    (event_level_status : String) (pages : List (List Entity)) : List (String × String) :=
  if event_level_status = "closed" then account_ids.map (fun a => (a, "closed"))
  else if account_ids.isEmpty then []
  else
    let m := process_pages account_ids event_level_status 0 pages []
    account_ids.foldl (fill_missing_account event_level_status) m

/-- Number of affected-entities API calls `fetch_per_account_status_batch`
performs for one batch. -/
def fetch_per_account_status_api_calls (account_ids : List String)
    (event_level_status : String) (pages : List (List Entity)) : Nat :=
  if event_level_status = "closed" then 0
  else if account_ids.isEmpty then 0
  else process_pages_api_calls account_ids event_level_status 0 pages []

end CloudOps

namespace CloudOps

/-! ### Claim theorems for TTL, counter non-negativity and risk-level coupling -/

/-- C5: for every stored record the ttl computed by
`normalize_and_calculate_ttl` equals (hence is at least)
`max(lastUpdateTime, startTime) + retentionWindow`, and a future-dated
startTime wins over lastUpdateTime as the TTL base. -/
theorem ttl_ge_max_plus_retention (l s now d : Int) :
    (normalize_and_calculate_ttl (some l) (some s) now d).2 = max l s + d * SECONDS_PER_DAY ∧
    max l s + d * SECONDS_PER_DAY ≤ (normalize_and_calculate_ttl (some l) (some s) now d).2 ∧
    (l < s → (normalize_and_calculate_ttl (some l) (some s) now d).2 = s + d * SECONDS_PER_DAY) := by
  have hmax : (if s > l then s else l) = max l s := by
    rw [max_def]
    split
    · split
      · rfl
      · omega
    · split
      · omega
      · rfl
  refine ⟨?_, ?_, ?_⟩
  · simp only [normalize_and_calculate_ttl, Option.getD, hmax]
  · simp only [normalize_and_calculate_ttl, Option.getD, hmax]
    exact le_rfl
  · intro hls
    simp only [normalize_and_calculate_ttl, Option.getD]
    rw [if_pos hls]

/-- Witness for C5: the S6 scenario, `startTime = now + 30d`,
`lastUpdateTime = now`, retention 180 days: ttl is based on startTime. -/
theorem ttl_ge_max_plus_retention_witness :
    (normalize_and_calculate_ttl (some 0) (some 2592000) 0 180).2 =
      2592000 + 180 * SECONDS_PER_DAY :=
  (ttl_ge_max_plus_retention 0 2592000 0 180).2.2 (by decide)

/-- C8: counters never go negative: starting from a non-negative stored value,
any sequence of clamped decrement applications stays non-negative, and a
single decrement applied at value k stores `max(0, k-1)` on both the
status-transition path and the TTL-deletion path. -/
theorem counters_never_negative (k : Int) (hk : 0 ≤ k) (changes : List Int) :
    0 ≤ changes.foldl apply_count_change k ∧
    ttl_deletion_counter_value k (-1) = max 0 (k - 1) ∧
    update_live_counts_negative_value k (-1) = max 0 (k - 1) := by
  have hadd : k + -1 = k - 1 := by ring
  refine ⟨foldl_apply_count_change_nonneg changes k hk, ?_, ?_⟩
  · unfold ttl_deletion_counter_value
    rw [hadd]
  · unfold update_live_counts_negative_value
    rw [hadd]

/-- Witness for C8: three successive decrements from value 1 stay
non-negative, and a decrement at 0 stores 0. -/
theorem counters_never_negative_witness :
    0 ≤ ([(-1 : Int), -1, -1].foldl apply_count_change 1) ∧
    ttl_deletion_counter_value 1 (-1) = max 0 (1 - 1) ∧
    update_live_counts_negative_value 1 (-1) = max 0 (1 - 1) :=
  counters_never_negative 1 (by decide) [(-1 : Int), -1, -1]

/-- C9 counterexample: the claim says post-processing leaves `risk_level`
uppercase for every parsed analysis, but an unrecognized value such as
"medium-high" is stored unchanged in its original (lower) case: only the
local comparison variable is uppercased. -/
theorem risk_level_uppercase_counterexample :
    normalize_risk_level ⟨some "medium-high", false⟩ = ⟨some "medium-high", false⟩ ∧
    py_upper "medium-high" ≠ "medium-high" := by
  constructor
  · decide
  · decide

/-- C9 amended: after post-processing, (a) a stored risk_level of CRITICAL
forces `critical = true`; (b) when the `risk_level` key is present, a true
`critical` flag forces the stored level to CRITICAL; (c) whenever the
stripped upper-cased input value is one of the recognized levels, the stored
level is one of the uppercase canonical values; unrecognized values are
stored unchanged rather than uppercased. -/
theorem risk_level_critical_coupling (a : LlmAnalysis) :
    ((normalize_risk_level a).risk_level = some "CRITICAL" →
      (normalize_risk_level a).critical = true) ∧
    (∀ rl, a.risk_level = some rl → (normalize_risk_level a).critical = true →
      (normalize_risk_level a).risk_level = some "CRITICAL") ∧
    (∀ rl, a.risk_level = some rl →
      (py_upper (py_strip rl) = "CRITICAL" ∨ py_upper (py_strip rl) = "SEVERE" ∨
       py_upper (py_strip rl) = "HIGH" ∨ py_upper (py_strip rl) = "MEDIUM" ∨
       py_upper (py_strip rl) = "MODERATE" ∨ py_upper (py_strip rl) = "LOW") →
      ((normalize_risk_level a).risk_level = some "CRITICAL" ∨
       (normalize_risk_level a).risk_level = some "HIGH" ∨
       (normalize_risk_level a).risk_level = some "MEDIUM" ∨
       (normalize_risk_level a).risk_level = some "LOW")) := by
  obtain ⟨orl, c⟩ := a
  cases orl with
  | none =>
      refine ⟨?_, ?_, ?_⟩
      · intro h; simp [normalize_risk_level] at h
      · intro rl h; simp at h
      · intro rl h; simp at h
  | some rl =>
      by_cases h1 : py_upper (py_strip rl) = "CRITICAL" ∨ py_upper (py_strip rl) = "SEVERE"
      · refine ⟨?_, ?_, ?_⟩ <;> simp [normalize_risk_level, h1]
      · by_cases h2 : py_upper (py_strip rl) = "HIGH"
        · cases c <;> refine ⟨?_, ?_, ?_⟩ <;> simp [normalize_risk_level, h1, h2]
        · by_cases h3 : py_upper (py_strip rl) = "MEDIUM" ∨ py_upper (py_strip rl) = "MODERATE"
          · cases c <;> refine ⟨?_, ?_, ?_⟩ <;> simp [normalize_risk_level, h1, h2, h3]
          · by_cases h4 : py_upper (py_strip rl) = "LOW"
            · cases c <;> refine ⟨?_, ?_, ?_⟩ <;> simp [normalize_risk_level, h1, h2, h3, h4]
            · have hne : rl ≠ "CRITICAL" := by
                intro hrl
                apply h1
                subst hrl
                left
                decide
              cases c with
              | false =>
                  refine ⟨?_, ?_, ?_⟩
                  · intro h
                    exfalso
                    apply hne
                    have h' := h
                    simp [normalize_risk_level, h1, h2, h3, h4] at h'
                    exact h'
                  · intro rl' hrl' hc
                    exfalso
                    simp [normalize_risk_level, h1, h2, h3, h4] at hc
                  · intro rl' hrl' hrec
                    exfalso
                    have : rl' = rl := (Option.some.inj hrl').symm
                    subst this
                    rcases hrec with h | h | h | h | h | h
                    · exact h1 (Or.inl h)
                    · exact h1 (Or.inr h)
                    · exact h2 h
                    · exact h3 (Or.inl h)
                    · exact h3 (Or.inr h)
                    · exact h4 h
              | true =>
                  refine ⟨?_, ?_, ?_⟩
                  · simp [normalize_risk_level, h1, h2, h3, h4, hne]
                  · simp [normalize_risk_level, h1, h2, h3, h4, hne]
                  · intro rl' hrl' hrec
                    exfalso
                    have : rl' = rl := (Option.some.inj hrl').symm
                    subst this
                    rcases hrec with h | h | h | h | h | h
                    · exact h1 (Or.inl h)
                    · exact h1 (Or.inr h)
                    · exact h2 h
                    · exact h3 (Or.inl h)
                    · exact h3 (Or.inr h)
                    · exact h4 h

/-! ### Claim theorems for the per-account status resolver -/

/-- C7: with event-level status "closed" the resolver returns "closed" for
every account of a non-empty batch and performs no affected-entities API
call. -/
theorem closed_event_short_circuit (account_ids : List String)
    (pages : List (List Entity)) (_hne : account_ids ≠ []) :
    fetch_per_account_status_batch account_ids "closed" pages =
      account_ids.map (fun a => (a, "closed")) ∧
    (∀ a, a ∈ account_ids →
      dict_get (fetch_per_account_status_batch account_ids "closed" pages) a
        = some "closed") ∧
    fetch_per_account_status_api_calls account_ids "closed" pages = 0 := by
  have hres : fetch_per_account_status_batch account_ids "closed" pages =
      account_ids.map (fun a => (a, "closed")) := by
    simp [fetch_per_account_status_batch]
  refine ⟨hres, ?_, ?_⟩
  · intro a ha
    rw [hres]
    clear hres _hne
    induction account_ids with
    | nil => cases ha
    | cons x xs ih =>
        simp only [List.map_cons, dict_get]
        by_cases hx : x = a
        · rw [if_pos hx]
        · rw [if_neg hx]
          apply ih
          rcases List.mem_cons.mp ha with h | h
          · exact absurd h.symm hx
          · exact h
  · simp [fetch_per_account_status_api_calls]

/-- Witness for C7: the S4 scenario with two accounts and a non-empty entity
page: both accounts are reported closed and zero API calls are made. -/
theorem closed_event_short_circuit_witness :
    fetch_per_account_status_batch ["111111111111", "222222222222"] "closed"
        [[⟨"111111111111", some "IMPAIRED"⟩]] =
      [("111111111111", "closed"), ("222222222222", "closed")] ∧
    (∀ a, a ∈ ["111111111111", "222222222222"] →
      dict_get (fetch_per_account_status_batch ["111111111111", "222222222222"] "closed"
        [[⟨"111111111111", some "IMPAIRED"⟩]]) a = some "closed") ∧
    fetch_per_account_status_api_calls ["111111111111", "222222222222"] "closed"
        [[⟨"111111111111", some "IMPAIRED"⟩]] = 0 :=
  closed_event_short_circuit ["111111111111", "222222222222"]
    [[⟨"111111111111", some "IMPAIRED"⟩]] (by decide)

/-- C3 counterexample: the claim promises "open" whenever IMPAIRED and
RESOLVED entities both appear for an account, but an UNKNOWN entity seen
first pins the account to "unknown": the upgrade branch only fires from
"closed".  Here the entities for account 111111111111 include IMPAIRED and
RESOLVED, yet the resolver returns "unknown". -/
theorem worst_case_wins_counterexample :
    fetch_per_account_status_batch ["111111111111"] "open"
        [[⟨"111111111111", some "UNKNOWN"⟩],
         [⟨"111111111111", some "IMPAIRED"⟩, ⟨"111111111111", some "RESOLVED"⟩]] =
      [("111111111111", "unknown")] ∧
    ("unknown" : String) ≠ "open" := by
  constructor
  · decide
  · decide

/-! ### Dictionary lemmas for the resolver proofs -/

def dict_keys (m : List (String × String)) : List String := m.map Prod.fst

@[simp] theorem dict_keys_nil : dict_keys [] = [] := rfl

@[simp] theorem dict_keys_cons (p : String × String) (m : List (String × String)) :
    dict_keys (p :: m) = p.1 :: dict_keys m := rfl

theorem dict_get_set_self (m : List (String × String)) (k v : String) :
    dict_get (dict_set m k v) k = some v := by
  induction m with
  | nil => simp [dict_set, dict_get]
  | cons p rest ih =>
      obtain ⟨k', v'⟩ := p
      by_cases hk : k' = k
      · simp [dict_set, hk, dict_get]
      · simp [dict_set, hk, dict_get, ih]

theorem dict_get_set_other (m : List (String × String)) (k v a : String) (h : a ≠ k) :
    dict_get (dict_set m k v) a = dict_get m a := by
  have hka : ¬ k = a := fun hh => h hh.symm
  induction m with
  | nil => simp [dict_set, dict_get, hka]
  | cons p rest ih =>
      obtain ⟨k', v'⟩ := p
      by_cases hk : k' = k
      · subst hk
        simp only [dict_set, if_pos rfl, dict_get]
        rw [if_neg (fun hh => h hh.symm), if_neg (fun hh => h hh.symm)]
      · simp only [dict_set, if_neg hk, dict_get]
        by_cases hka : k' = a
        · rw [if_pos hka, if_pos hka]
        · rw [if_neg hka, if_neg hka, ih]

theorem dict_get_mem (m : List (String × String)) (a v : String)
    (h : dict_get m a = some v) : (a, v) ∈ m := by
  induction m with
  | nil => simp [dict_get] at h
  | cons p rest ih =>
      obtain ⟨k', v'⟩ := p
      by_cases hk : k' = a
      · subst hk
        simp [dict_get] at h
        subst h
        exact List.mem_cons_self _ _
      · simp only [dict_get, if_neg hk] at h
        exact List.mem_cons_of_mem _ (ih h)

theorem dict_get_none_iff (m : List (String × String)) (a : String) :
    dict_get m a = none ↔ a ∉ dict_keys m := by
  induction m with
  | nil => simp [dict_get, dict_keys]
  | cons p rest ih =>
      obtain ⟨k', v'⟩ := p
      by_cases hk : k' = a
      · subst hk
        simp [dict_get, dict_keys]
      · have hak : ¬ a = k' := fun hh => hk hh.symm
        simp [dict_get, hk, hak, ih]

theorem mem_dict_keys_get (m : List (String × String)) (a : String)
    (h : a ∈ dict_keys m) : ∃ v, dict_get m a = some v := by
  cases hg : dict_get m a with
  | none => exact absurd ((dict_get_none_iff m a).mp hg) (fun hh => hh h)
  | some v => exact ⟨v, rfl⟩

theorem dict_keys_set_of_mem (m : List (String × String)) (k v : String)
    (h : k ∈ dict_keys m) : dict_keys (dict_set m k v) = dict_keys m := by
  induction m with
  | nil => simp [dict_keys] at h
  | cons p rest ih =>
      obtain ⟨k', v'⟩ := p
      by_cases hk : k' = k
      · simp [dict_set, hk]
      · have hmem : k ∈ dict_keys rest := by
          rcases List.mem_cons.mp h with hh | hh
          · exact absurd hh.symm hk
          · exact hh
        simp [dict_set, hk, ih hmem]

theorem dict_keys_set_of_not_mem (m : List (String × String)) (k v : String)
    (h : k ∉ dict_keys m) : dict_keys (dict_set m k v) = dict_keys m ++ [k] := by
  induction m with
  | nil => simp [dict_set, dict_keys]
  | cons p rest ih =>
      obtain ⟨k', v'⟩ := p
      have hk : k' ≠ k := by
        intro hh
        exact h (by simp [hh])
      have hrest : k ∉ dict_keys rest := by
        intro hh
        exact h (by simp [hh])
      simp [dict_set, hk, ih hrest]

theorem dict_keys_set_nodup (m : List (String × String)) (k v : String)
    (h : (dict_keys m).Nodup) : (dict_keys (dict_set m k v)).Nodup := by
  by_cases hmem : k ∈ dict_keys m
  · rw [dict_keys_set_of_mem m k v hmem]
    exact h
  · rw [dict_keys_set_of_not_mem m k v hmem]
    simp [List.nodup_append, h, hmem]

theorem dict_keys_set_subset (m : List (String × String)) (k v a : String)
    (h : a ∈ dict_keys (dict_set m k v)) : a ∈ dict_keys m ∨ a = k := by
  by_cases hmem : k ∈ dict_keys m
  · rw [dict_keys_set_of_mem m k v hmem] at h
    exact Or.inl h
  · rw [dict_keys_set_of_not_mem m k v hmem] at h
    rcases List.mem_append.mp h with hh | hh
    · exact Or.inl hh
    · exact Or.inr (List.mem_singleton.mp hh)

theorem dict_get_append_left (m l : List (String × String)) (a v : String)
    (h : dict_get m a = some v) : dict_get (m ++ l) a = some v := by
  induction m with
  | nil => simp [dict_get] at h
  | cons p rest ih =>
      obtain ⟨k', v'⟩ := p
      by_cases hk : k' = a
      · simpa [dict_get, hk] using h
      · simp only [dict_get, if_neg hk] at h ⊢
        exact ih h

/-! ### Resolver invariants -/

/-- An entity carrying a truthy status that maps to "open". -/
def entity_status_open (e : Entity) : Prop :=
  ∃ s, e.statusCode = some s ∧ s ≠ "" ∧ map_entity_status_to_event_status s = "open"

/-- An entity carrying a truthy status that maps to "open" or "closed"
(IMPAIRED, PENDING, UNIMPAIRED or RESOLVED, in any letter case). -/
def entity_status_open_or_closed (e : Entity) : Prop :=
  ∃ s, e.statusCode = some s ∧ s ≠ "" ∧
    (map_entity_status_to_event_status s = "open" ∨
     map_entity_status_to_event_status s = "closed")

/-- During the pagination loop the status recorded for account `a` is either
absent or one of "open"/"closed". -/
def a_status_ok (a : String) (m : List (String × String)) : Prop :=
  dict_get m a = none ∨ dict_get m a = some "open" ∨ dict_get m a = some "closed"

theorem process_entity_get_other (els : String) (m : List (String × String)) (e : Entity)
    (a : String) (hne : e.awsAccountId ≠ a) :
    dict_get (process_entity els m e) a = dict_get m a := by
  have hna : a ≠ e.awsAccountId := fun hh => hne hh.symm
  obtain ⟨aid, st⟩ := e
  simp only [process_entity]
  by_cases h0 : aid = ""
  · simp [h0]
  · simp only [if_neg h0]
    cases st with
    | none =>
        cases hget : dict_get m aid with
        | none => simp [dict_get_set_other m aid els a hna]
        | some w => simp
    | some s =>
        by_cases hs : s = ""
        · simp only [if_pos hs]
          cases hget : dict_get m aid with
          | none => simp [dict_get_set_other m aid els a hna]
          | some w => simp
        · simp only [if_neg hs]
          cases hget : dict_get m aid with
          | none => simp [dict_get_set_other m aid _ a hna]
          | some cur =>
              by_cases hcur : cur = "closed" ∧ map_entity_status_to_event_status s = "open"
              · simp [hcur, dict_get_set_other m aid _ a hna]
              · simp [hcur]

theorem process_entity_open_mono (els : String) (m : List (String × String)) (e : Entity)
    (a : String) (h : dict_get m a = some "open") :
    dict_get (process_entity els m e) a = some "open" := by
  by_cases heq : e.awsAccountId = a
  · obtain ⟨aid, st⟩ := e
    have heq' : aid = a := heq
    subst heq'
    by_cases h0 : aid = ""
    · subst h0
      simpa [process_entity] using h
    · simp only [process_entity, if_neg h0]
      cases st with
      | none => simp [h]
      | some s =>
          by_cases hs : s = ""
          · simp [hs, h]
          · simp only [if_neg hs, h]
            have : ¬ (("open" : String) = "closed" ∧
                map_entity_status_to_event_status s = "open") := by
              intro hh
              exact absurd hh.1 (by decide)
            simp [this, h]
  · rw [process_entity_get_other els m e a heq]
    exact h

theorem process_entity_sets_open (els : String) (m : List (String × String)) (e : Entity)
    (a : String) (heq : e.awsAccountId = a) (ha : a ≠ "")
    (hopen : entity_status_open e) (hok : a_status_ok a m) :
    dict_get (process_entity els m e) a = some "open" := by
  obtain ⟨aid, st⟩ := e
  have heq' : aid = a := heq
  subst heq'
  obtain ⟨s, hst, hsne, hmap⟩ := hopen
  have hst' : st = some s := hst
  subst hst'
  simp only [process_entity, if_neg ha, if_neg hsne]
  rcases hok with hok | hok | hok
  · simp [hok, hmap, dict_get_set_self]
  · simp [hok, hmap]
  · simp [hok, hmap, dict_get_set_self]

theorem process_entity_preserves_ok (els : String) (m : List (String × String)) (e : Entity)
    (a : String) (hoc : e.awsAccountId = a → entity_status_open_or_closed e)
    (hok : a_status_ok a m) : a_status_ok a (process_entity els m e) := by
  by_cases heq : e.awsAccountId = a
  · obtain ⟨s, hst, hsne, hmap⟩ := hoc heq
    obtain ⟨aid, st⟩ := e
    have heq' : aid = a := heq
    subst heq'
    have hst' : st = some s := hst
    subst hst'
    by_cases h0 : aid = ""
    · subst h0
      simpa [process_entity] using hok
    · simp only [process_entity, if_neg h0, if_neg hsne]
      rcases hok with hok | hok | hok
      · rcases hmap with hmap | hmap <;>
          simp [hok, hmap, a_status_ok, dict_get_set_self]
      · have : ¬ (("open" : String) = "closed" ∧
            map_entity_status_to_event_status s = "open") := by
          intro hh
          exact absurd hh.1 (by decide)
        simp [hok, this, a_status_ok]
      · rcases hmap with hmap | hmap
        · simp [hok, hmap, a_status_ok, dict_get_set_self]
        · simp [hok, hmap, a_status_ok]
  · unfold a_status_ok
    rw [process_entity_get_other els m e a heq]
    exact hok

theorem process_entity_cases (els : String) (m : List (String × String)) (e : Entity) :
    process_entity els m e = m ∨
    (e.awsAccountId ≠ "" ∧ ∃ v, process_entity els m e = dict_set m e.awsAccountId v) := by
  obtain ⟨aid, st⟩ := e
  by_cases h0 : aid = ""
  · left
    simp [process_entity, h0]
  · simp only [process_entity, if_neg h0]
    cases st with
    | none =>
        dsimp only
        rcases hget : dict_get m aid with _ | w
        · right
          exact ⟨h0, els, rfl⟩
        · left
          rfl
    | some s =>
        dsimp only
        by_cases hs : s = ""
        · rw [if_pos hs]
          rcases hget : dict_get m aid with _ | w
          · right
            exact ⟨h0, els, rfl⟩
          · left
            rfl
        · rw [if_neg hs]
          rcases hget : dict_get m aid with _ | cur
          · right
            exact ⟨h0, map_entity_status_to_event_status s, rfl⟩
          · by_cases hcur : cur = "closed" ∧ map_entity_status_to_event_status s = "open"
            · right
              refine ⟨h0, "open", ?_⟩
              dsimp only
              rw [if_pos hcur]
            · left
              dsimp only
              rw [if_neg hcur]

theorem process_entity_keys (els : String) (m : List (String × String)) (e : Entity)
    (k : String) (hk : k ∈ dict_keys (process_entity els m e)) :
    k ∈ dict_keys m ∨ (k = e.awsAccountId ∧ e.awsAccountId ≠ "") := by
  rcases process_entity_cases els m e with hc | ⟨hne, v, hc⟩
  · rw [hc] at hk
    exact Or.inl hk
  · rw [hc] at hk
    rcases dict_keys_set_subset m _ v k hk with hh | hh
    · exact Or.inl hh
    · exact Or.inr ⟨hh, hne⟩

theorem process_entity_keys_nodup (els : String) (m : List (String × String)) (e : Entity)
    (h : (dict_keys m).Nodup) : (dict_keys (process_entity els m e)).Nodup := by
  rcases process_entity_cases els m e with hc | ⟨hne, v, hc⟩
  · rw [hc]
    exact h
  · rw [hc]
    exact dict_keys_set_nodup m _ v h

theorem fold_entities_open_mono (els : String) :
    ∀ (page : List Entity) (m : List (String × String)) (a : String),
    dict_get m a = some "open" →
    dict_get (page.foldl (process_entity els) m) a = some "open" := by
  intro page
  induction page with
  | nil => intro m a h; simpa using h
  | cons e es ih =>
      intro m a h
      simp only [List.foldl_cons]
      exact ih _ a (process_entity_open_mono els m e a h)

theorem fold_entities_preserves_ok (els : String) :
    ∀ (page : List Entity) (m : List (String × String)) (a : String),
    (∀ e ∈ page, e.awsAccountId = a → entity_status_open_or_closed e) →
    a_status_ok a m →
    a_status_ok a (page.foldl (process_entity els) m) := by
  intro page
  induction page with
  | nil => intro m a _ h; simpa using h
  | cons e es ih =>
      intro m a hoc h
      simp only [List.foldl_cons]
      refine ih _ a (fun e' he' => hoc e' (List.mem_cons_of_mem _ he')) ?_
      exact process_entity_preserves_ok els m e a (hoc e (List.mem_cons_self _ _)) h

theorem fold_entities_sets_open (els : String) :
    ∀ (page : List Entity) (m : List (String × String)) (a : String), a ≠ "" →
    (∀ e ∈ page, e.awsAccountId = a → entity_status_open_or_closed e) →
    a_status_ok a m →
    ((∃ e ∈ page, e.awsAccountId = a ∧ entity_status_open e) ∨ dict_get m a = some "open") →
    dict_get (page.foldl (process_entity els) m) a = some "open" := by
  intro page
  induction page with
  | nil =>
      intro m a _ _ _ hev
      rcases hev with ⟨e, he, _⟩ | h
      · cases he
      · simpa using h
  | cons e es ih =>
      intro m a ha hoc hok hev
      simp only [List.foldl_cons]
      rcases hev with ⟨e', he', heq, hop⟩ | h
      · rcases List.mem_cons.mp he' with rfl | he'
        · exact fold_entities_open_mono els es _ a
            (process_entity_sets_open els m e' a heq ha hop hok)
        · refine ih _ a ha (fun x hx => hoc x (List.mem_cons_of_mem _ hx)) ?_ ?_
          · exact process_entity_preserves_ok els m e a (hoc e (List.mem_cons_self _ _)) hok
          · exact Or.inl ⟨e', he', heq, hop⟩
      · exact fold_entities_open_mono els es _ a (process_entity_open_mono els m e a h)

theorem fold_entities_keys (els : String) :
    ∀ (page : List Entity) (m : List (String × String)) (k : String),
    k ∈ dict_keys (page.foldl (process_entity els) m) →
    k ∈ dict_keys m ∨ ∃ e ∈ page, k = e.awsAccountId ∧ e.awsAccountId ≠ "" := by
  intro page
  induction page with
  | nil => intro m k h; exact Or.inl (by simpa using h)
  | cons e es ih =>
      intro m k h
      simp only [List.foldl_cons] at h
      rcases ih _ k h with hh | ⟨e', he', hk⟩
      · rcases process_entity_keys els m e k hh with hm | hm
        · exact Or.inl hm
        · exact Or.inr ⟨e, List.mem_cons_self _ _, hm⟩
      · exact Or.inr ⟨e', List.mem_cons_of_mem _ he', hk⟩

theorem fold_entities_keys_nodup (els : String) :
    ∀ (page : List Entity) (m : List (String × String)),
    (dict_keys m).Nodup → (dict_keys (page.foldl (process_entity els) m)).Nodup := by
  intro page
  induction page with
  | nil => intro m h; simpa using h
  | cons e es ih =>
      intro m h
      simp only [List.foldl_cons]
      exact ih _ (process_entity_keys_nodup els m e h)

theorem early_exit_all_open (batch : List String) (m : List (String × String)) (a : String)
    (hnd : (dict_keys m).Nodup) (hsub : ∀ k ∈ dict_keys m, k ∈ batch)
    (hbnd : batch.Nodup) (ha : a ∈ batch)
    (hx : all_open_early_exit batch m = true) :
    dict_get m a = some "open" := by
  simp only [all_open_early_exit, Bool.and_eq_true, decide_eq_true_eq,
    List.all_eq_true] at hx
  obtain ⟨hlen, hall⟩ := hx
  have hkeylen : (dict_keys m).length = m.length := List.length_map _ _
  have hsubF : (dict_keys m).toFinset ⊆ batch.toFinset := by
    intro x hxm
    rw [List.mem_toFinset] at hxm ⊢
    exact hsub x hxm
  have hcardeq : batch.toFinset.card ≤ (dict_keys m).toFinset.card := by
    rw [List.toFinset_card_of_nodup hnd, List.toFinset_card_of_nodup hbnd, hkeylen, hlen]
  have hfeq : (dict_keys m).toFinset = batch.toFinset :=
    Finset.eq_of_subset_of_card_le hsubF hcardeq
  have hamem : a ∈ dict_keys m := by
    have : a ∈ (dict_keys m).toFinset := by
      rw [hfeq, List.mem_toFinset]
      exact ha
    rwa [List.mem_toFinset] at this
  obtain ⟨v, hv⟩ := mem_dict_keys_get m a hamem
  have : (a, v) ∈ m := dict_get_mem m a v hv
  have hvopen : v = "open" := hall (a, v) this
  rw [hv, hvopen]

theorem process_pages_sets_open (batch : List String) (els a : String)
    (hbnd : batch.Nodup) (ha : a ∈ batch) (ha' : a ≠ "") :
    ∀ (pages : List (List Entity)) (page_count : Nat) (m : List (String × String)),
    pages.length + page_count ≤ 10 →
    (dict_keys m).Nodup →
    (∀ k ∈ dict_keys m, k ∈ batch) →
    (∀ page ∈ pages, ∀ e ∈ page, e.awsAccountId ≠ "" → e.awsAccountId ∈ batch) →
    (∀ page ∈ pages, ∀ e ∈ page, e.awsAccountId = a → entity_status_open_or_closed e) →
    a_status_ok a m →
    ((∃ page ∈ pages, ∃ e ∈ page, e.awsAccountId = a ∧ entity_status_open e) ∨
      dict_get m a = some "open") →
    dict_get (process_pages batch els page_count pages m) a = some "open" := by
  intro pages
  induction pages with
  | nil =>
      intro pc m _ _ _ _ _ _ hev
      rcases hev with ⟨p, hp, _⟩ | h
      · cases hp
      · simpa [process_pages] using h
  | cons page rest ih =>
      intro pc m hfuel hnd hsub hscope hoc hok hev
      have hcap : ¬ pc + 1 > 10 := by
        simp only [List.length_cons] at hfuel
        omega
      simp only [process_pages, if_neg hcap]
      have hnd' : (dict_keys (page.foldl (process_entity els) m)).Nodup :=
        fold_entities_keys_nodup els page m hnd
      have hsub' : ∀ k ∈ dict_keys (page.foldl (process_entity els) m), k ∈ batch := by
        intro k hk
        rcases fold_entities_keys els page m k hk with hh | ⟨e, he, hke, hene⟩
        · exact hsub k hh
        · rw [hke]
          exact hscope page (List.mem_cons_self _ _) e he hene
      have hok' : a_status_ok a (page.foldl (process_entity els) m) :=
        fold_entities_preserves_ok els page m a
          (hoc page (List.mem_cons_self _ _)) hok
      by_cases hexit : all_open_early_exit batch (page.foldl (process_entity els) m) = true
      · rw [if_pos hexit]
        exact early_exit_all_open batch _ a hnd' hsub' hbnd ha hexit
      · rw [if_neg hexit]
        refine ih (pc + 1) _ ?_ hnd' hsub' ?_ ?_ hok' ?_
        · simp only [List.length_cons] at hfuel
          omega
        · intro p hp e he
          exact hscope p (List.mem_cons_of_mem _ hp) e he
        · intro p hp e he
          exact hoc p (List.mem_cons_of_mem _ hp) e he
        · rcases hev with ⟨p, hp, e, he, heq, hop⟩ | h
          · rcases List.mem_cons.mp hp with rfl | hp
            · right
              exact fold_entities_sets_open els p m a ha'
                (hoc p (List.mem_cons_self _ _)) hok (Or.inl ⟨e, he, heq, hop⟩)
            · exact Or.inl ⟨p, hp, e, he, heq, hop⟩
          · right
            exact fold_entities_open_mono els page m a h

theorem fill_missing_preserves (els a v : String) :
    ∀ (account_ids : List String) (m : List (String × String)),
    dict_get m a = some v →
    dict_get (account_ids.foldl (fill_missing_account els) m) a = some v := by
  intro ids
  induction ids with
  | nil => intro m h; simpa using h
  | cons x xs ih =>
      intro m h
      simp only [List.foldl_cons]
      apply ih
      unfold fill_missing_account
      cases hget : dict_get m x with
      | none => exact dict_get_append_left m _ a v h
      | some w => exact h

/-- C3 amended: for an account a of a duplicate-free batch, if the event-level
status is not "closed", at most 10 entity pages are returned, every entity
names an account of the batch, every entity reported for a carries a status
mapping to "open" or "closed" (IMPAIRED/PENDING/UNIMPAIRED/RESOLVED), and at
least one entity for a maps to "open" (IMPAIRED or PENDING), then the
resolver returns "open" for a, regardless of the order and pagination of the
entities.  The two restrictions the counterexample forces are: no
UNKNOWN/blank-status entity may be reported for a, and the open evidence must
lie within the 10-page safety cap. -/
theorem worst_case_wins_amended (batch : List String) (els a : String)
    (pages : List (List Entity))
    (hels : els ≠ "closed") (hbnd : batch.Nodup) (ha : a ∈ batch) (ha' : a ≠ "")
    (hlen : pages.length ≤ 10)
    (hscope : ∀ page ∈ pages, ∀ e ∈ page, e.awsAccountId ≠ "" → e.awsAccountId ∈ batch)
    (hoc : ∀ page ∈ pages, ∀ e ∈ page, e.awsAccountId = a → entity_status_open_or_closed e)
    (hopen : ∃ page ∈ pages, ∃ e ∈ page, e.awsAccountId = a ∧ entity_status_open e) :
    dict_get (fetch_per_account_status_batch batch els pages) a = some "open" := by
  have hne : ¬ (batch.isEmpty = true) := by
    cases batch with
    | nil => cases ha
    | cons x xs => simp
  unfold fetch_per_account_status_batch
  rw [if_neg hels, if_neg hne]
  apply fill_missing_preserves
  apply process_pages_sets_open batch els a hbnd ha ha' pages 0 []
  · simpa using hlen
  · simp [dict_keys]
  · simp [dict_keys]
  · exact hscope
  · exact hoc
  · left
    rfl
  · exact Or.inl hopen

/-- Witness for C3 amended: the S3 scenario, one account, RESOLVED on page 1
and IMPAIRED on page 2: the resolver upgrades the account to "open". -/
theorem worst_case_wins_amended_witness :
    dict_get (fetch_per_account_status_batch ["111111111111"] "open"
      [[⟨"111111111111", some "RESOLVED"⟩], [⟨"111111111111", some "IMPAIRED"⟩]])
      "111111111111" = some "open" :=
  worst_case_wins_amended ["111111111111"] "open" "111111111111"
    [[⟨"111111111111", some "RESOLVED"⟩], [⟨"111111111111", some "IMPAIRED"⟩]]
    (by decide) (by decide) (by decide) (by decide) (by decide)
    (by decide)
    (by
      intro page hp e he heq
      have hres : entity_status_open_or_closed ⟨"111111111111", some "RESOLVED"⟩ :=
        ⟨"RESOLVED", rfl, by decide, Or.inr (by decide)⟩
      have himp : entity_status_open_or_closed ⟨"111111111111", some "IMPAIRED"⟩ :=
        ⟨"IMPAIRED", rfl, by decide, Or.inl (by decide)⟩
      simp only [List.mem_cons, List.not_mem_nil, or_false] at hp
      rcases hp with rfl | rfl
      · have he' : e = ⟨"111111111111", some "RESOLVED"⟩ := by simpa using he
        rw [he']
        exact hres
      · have he' : e = ⟨"111111111111", some "IMPAIRED"⟩ := by simpa using he
        rw [he']
        exact himp)
    ⟨[⟨"111111111111", some "IMPAIRED"⟩], by simp,
      ⟨"111111111111", some "IMPAIRED"⟩, by simp,
      rfl, ⟨"IMPAIRED", rfl, by decide, by decide⟩⟩

/-! ## ARN-based counter recomputation (storage/dynamodb_handler.py,
recalculate_arn_based_counts)

A scan of the events table is a list of records projected to
`eventArn, accountId, statusCode, eventTypeCategory, service`.  The Python
grouping dict `arn_data` keys records by non-empty ARN, collects the
`(accountId, status)` pairs in order and lets the last record of a group win
for `category`/`service`; `arn_group` reproduces a group by filtering. -/

structure EventRecord where
  eventArn : String
  accountId : String
  statusCode : String
  eventTypeCategory : String
  service : String
deriving DecidableEq

inductive CounterCategory
  | notifications
  | active_issues
  | scheduled
  | billing_changes
deriving DecidableEq

/-- The counter-category decision used by both count paths
(dynamodb_handler.py lines 1521-1530, identically at 562-571 and 977-986):
BILLING service wins, then `accountNotification`, `issue`, `scheduledChange`;
anything else maps to no counter.  `service` is the upper-cased service. -/
def counter_category_of (service category : String) : Option CounterCategory :=
  if service = "BILLING" then some CounterCategory.billing_changes
  else if category = "accountNotification" then some CounterCategory.notifications
  else if category = "issue" ∧ service ≠ "BILLING" then some CounterCategory.active_issues
  else if category = "scheduledChange" then some CounterCategory.scheduled
  else none

end CloudOps

namespace CloudOps

/-- Records of the scan that share a given ARN, in scan order (the dict
`arn_data[arn]["accounts"]` accumulates exactly these, and the repeated
assignment of `category`/`service` lets the last one win). -/
def arn_group (records : List EventRecord) (arn : String) : List EventRecord :=
  records.filter (fun r => r.eventArn == arn)

/-- The `all_closed` test of a group (dynamodb_handler.py line 1516). -/
def group_all_closed (g : List EventRecord) : Bool :=
  g.all (fun r => r.statusCode == "closed")

/-- Counter category of an ARN: taken from the group's last record, with the
service upper-cased as at grouping time (line 1494). -/
def group_counter_category (records : List EventRecord) (arn : String) :
    Option CounterCategory :=
  match (arn_group records arn).getLast? with
  | none => none
  | some r => counter_category_of (py_upper r.service) r.eventTypeCategory

/-- The unique non-empty ARNs of the scan — the key set of `arn_data`
(records with a falsy `eventArn` are skipped at line 1488). -/
def unique_arns (records : List EventRecord) : List String :=
  ((records.map (fun r => r.eventArn)).filter (fun s => s != "")).dedup

/-- Whether the recomputation adds `arn` to the category set of account `a`
(dynamodb_handler.py lines 1510-1539): the ARN is skipped when all its
account records are closed or it maps to no counter category; otherwise it is
added to the set of every account with a truthy id appearing on the ARN. -/
def arn_counts_for (records : List EventRecord) (arn a : String)
    (cat : CounterCategory) : Bool :=
  !(group_all_closed (arn_group records arn)) &&
    (group_counter_category records arn == some cat) &&
    (arn_group records arn).any (fun r => r.accountId == a) &&
    (a != "")

/-- The counter value written for account `a` and category `cat` by
`recalculate_arn_based_counts` (dynamodb_handler.py lines 1502-1582): the
cardinality of the set of ARNs accumulated for that account and category. -/
def recalculate_count (records : List EventRecord) (a : String)
    (cat : CounterCategory) : Nat :=
  ((unique_arns records).foldl
    (fun s arn => if arn_counts_for records arn a cat then insert arn s else s)
    (∅ : Finset String)).card

/-- The set of ARNs described by the specification: ARNs of the scan mapping
to the category, on which `a` has a record, and with at least one non-closed
account record. -/
def spec_arn_set (records : List EventRecord) (a : String)
    (cat : CounterCategory) : Finset String :=
  ((records.map (fun r => r.eventArn)).toFinset).filter (fun arn =>
    arn ≠ "" ∧ group_counter_category records arn = some cat ∧
    (∃ r ∈ records, r.eventArn = arn ∧ r.accountId = a) ∧
    (∃ r ∈ records, r.eventArn = arn ∧ r.statusCode ≠ "closed"))

end CloudOps

namespace CloudOps

theorem foldl_insert_filter (p : String → Bool) :
    ∀ (l : List String) (s : Finset String),
    l.foldl (fun s x => if p x then insert x s else s) s = s ∪ (l.filter p).toFinset := by
  intro l
  induction l with
  | nil => intro s; simp
  | cons x xs ih =>
      intro s
      simp only [List.foldl_cons]
      by_cases hp : p x
      · rw [if_pos hp, ih, List.filter_cons_of_pos hp]
        simp only [List.toFinset_cons]
        rw [Finset.union_insert, Finset.insert_union]
      · rw [if_neg hp, ih, List.filter_cons_of_neg (by simpa using hp)]

theorem not_all_closed_iff (records : List EventRecord) (arn : String) :
    ((!(group_all_closed (arn_group records arn))) = true) ↔
      ∃ r ∈ records, r.eventArn = arn ∧ r.statusCode ≠ "closed" := by
  rw [Bool.not_eq_true', Bool.eq_false_iff, Ne, group_all_closed, List.all_eq_true]
  constructor
  · intro h
    by_contra hne
    push_neg at hne
    apply h
    intro r hr
    rw [beq_iff_eq]
    have hm := List.mem_filter.mp hr
    exact hne r hm.1 (by simpa [beq_iff_eq] using hm.2)
  · rintro ⟨r, hr, harn, hst⟩ hall
    have hmem : r ∈ arn_group records arn :=
      List.mem_filter.mpr ⟨hr, by simp [beq_iff_eq, harn]⟩
    have := hall r hmem
    rw [beq_iff_eq] at this
    exact hst this

theorem any_account_iff (records : List EventRecord) (arn a : String) :
    ((arn_group records arn).any (fun r => r.accountId == a) = true) ↔
      ∃ r ∈ records, r.eventArn = arn ∧ r.accountId = a := by
  simp [arn_group, List.any_eq_true, List.mem_filter, beq_iff_eq, and_assoc]

theorem recalculate_count_eq_spec (records : List EventRecord) (a : String)
    (cat : CounterCategory) (ha : a ≠ "") :
    recalculate_count records a cat = (spec_arn_set records a cat).card := by
  unfold recalculate_count
  rw [foldl_insert_filter, Finset.empty_union]
  have hset : ((unique_arns records).filter
      (fun arn => arn_counts_for records arn a cat)).toFinset =
      spec_arn_set records a cat := by
    ext arn
    rw [List.mem_toFinset, List.mem_filter]
    unfold spec_arn_set
    rw [Finset.mem_filter, List.mem_toFinset]
    unfold unique_arns
    rw [List.mem_dedup, List.mem_filter]
    unfold arn_counts_for
    simp only [Bool.and_eq_true, bne_iff_ne, ne_eq]
    rw [not_all_closed_iff, any_account_iff, beq_iff_eq]
    constructor
    · rintro ⟨⟨hmem, hne⟩, ⟨⟨hcl, hcat⟩, hacc⟩, _⟩
      refine ⟨?_, fun h => hne (by simpa using h), hcat, hacc, hcl⟩
      rcases List.mem_map.mp hmem with ⟨r, hr, hrarn⟩
      exact List.mem_map.mpr ⟨r, hr, hrarn⟩
    · rintro ⟨hmem, hne, hcat, hacc, hcl⟩
      exact ⟨⟨hmem, by simpa using hne⟩, ⟨⟨hcl, hcat⟩, hacc⟩, fun h => ha (by simpa using h)⟩
  rw [hset]

/-- C2: after a full recompute via `recalculate_arn_based_counts`, the counter
stored for every account with a truthy id and every category equals the
cardinality of the set of unique event ARNs that map to that category, on
which the account has a record, and on which at least one account record is
not "closed"; an ARN all of whose records are closed contributes to no
counter. -/
theorem recalc_counter_eq_unique_arn_card (records : List EventRecord) (a : String)
    (cat : CounterCategory) (ha : a ≠ "") :
    recalculate_count records a cat = (spec_arn_set records a cat).card :=
  recalculate_count_eq_spec records a cat ha

/-- Witness for C2: a three-record store (one multi-account issue ARN, one
fully closed ARN) where account 111111111111 gets counter 1. -/
theorem recalc_counter_eq_unique_arn_card_witness :
    recalculate_count
      [⟨"arn:e1", "111111111111", "open", "issue", "EC2"⟩,
       ⟨"arn:e1", "222222222222", "closed", "issue", "EC2"⟩,
       ⟨"arn:e2", "111111111111", "closed", "issue", "EC2"⟩]
      "111111111111" CounterCategory.active_issues =
    (spec_arn_set
      [⟨"arn:e1", "111111111111", "open", "issue", "EC2"⟩,
       ⟨"arn:e1", "222222222222", "closed", "issue", "EC2"⟩,
       ⟨"arn:e2", "111111111111", "closed", "issue", "EC2"⟩]
      "111111111111" CounterCategory.active_issues).card ∧
    recalculate_count
      [⟨"arn:e1", "111111111111", "open", "issue", "EC2"⟩,
       ⟨"arn:e1", "222222222222", "closed", "issue", "EC2"⟩,
       ⟨"arn:e2", "111111111111", "closed", "issue", "EC2"⟩]
      "111111111111" CounterCategory.active_issues = 1 :=
  ⟨recalc_counter_eq_unique_arn_card _ "111111111111" CounterCategory.active_issues
    (by decide), by decide⟩

/-- C6 counterexample: the claim says the full recompute adds 0 to the
counter of the account whose own record is closed, but the code adds the ARN
to the set of every account present on a not-fully-closed ARN: with A open
and B closed, B's `active_issues` counter becomes 1, not 0. -/
theorem partial_close_counterexample :
    recalculate_count
      [⟨"arn:e1", "111111111111", "open", "issue", "EC2"⟩,
       ⟨"arn:e1", "222222222222", "closed", "issue", "EC2"⟩]
      "222222222222" CounterCategory.active_issues = 1 ∧ (1 : Nat) ≠ 0 := by
  constructor
  · decide
  · decide

/-- C6 amended: for an ARN with exactly two account records, A open and B
closed (category issue, non-BILLING service), the full recompute gives BOTH
accounts an `active_issues` counter of 1: an ARN that is not fully closed
counts once for every account having a record on it, regardless of that
account's own status. -/
theorem partial_close_amended (arn A B svc : String)
    (harn : arn ≠ "") (hA : A ≠ "") (hB : B ≠ "")
    (hsvc : py_upper svc ≠ "BILLING") :
    recalculate_count [⟨arn, A, "open", "issue", svc⟩, ⟨arn, B, "closed", "issue", svc⟩]
      A CounterCategory.active_issues = 1 ∧
    recalculate_count [⟨arn, A, "open", "issue", svc⟩, ⟨arn, B, "closed", "issue", svc⟩]
      B CounterCategory.active_issues = 1 := by
  have hgroup : arn_group
      [⟨arn, A, "open", "issue", svc⟩, ⟨arn, B, "closed", "issue", svc⟩] arn =
      [⟨arn, A, "open", "issue", svc⟩, ⟨arn, B, "closed", "issue", svc⟩] := by
    simp [arn_group]
  have huniq : unique_arns [⟨arn, A, "open", "issue", svc⟩, ⟨arn, B, "closed", "issue", svc⟩]
      = [arn] := by
    simp [unique_arns, harn, List.dedup_cons_of_mem]
  constructor
  · have hcount : arn_counts_for
        [⟨arn, A, "open", "issue", svc⟩, ⟨arn, B, "closed", "issue", svc⟩] arn A
        CounterCategory.active_issues = true := by
      unfold arn_counts_for group_all_closed group_counter_category counter_category_of
      rw [hgroup]
      simp [hsvc, hA]
    unfold recalculate_count
    rw [huniq]
    simp [hcount]
  · have hcount : arn_counts_for
        [⟨arn, A, "open", "issue", svc⟩, ⟨arn, B, "closed", "issue", svc⟩] arn B
        CounterCategory.active_issues = true := by
      unfold arn_counts_for group_all_closed group_counter_category counter_category_of
      rw [hgroup]
      simp [hsvc, hB]
    unfold recalculate_count
    rw [huniq]
    simp [hcount]

/-- Witness for C6 amended: the S5 scenario at concrete inputs. -/
theorem partial_close_amended_witness :
    recalculate_count
      [⟨"arn:e1", "111111111111", "open", "issue", "EC2"⟩,
       ⟨"arn:e1", "222222222222", "closed", "issue", "EC2"⟩]
      "111111111111" CounterCategory.active_issues = 1 ∧
    recalculate_count
      [⟨"arn:e1", "111111111111", "open", "issue", "EC2"⟩,
       ⟨"arn:e1", "222222222222", "closed", "issue", "EC2"⟩]
      "222222222222" CounterCategory.active_issues = 1 :=
  partial_close_amended "arn:e1" "111111111111" "222222222222" "EC2"
    (by decide) (by decide) (by decide) (by decide)

end CloudOps

namespace CloudOps

/-- Witness for C9 amended: a present risk_level with a true critical flag is
upgraded to CRITICAL. -/
theorem risk_level_critical_coupling_witness :
    (normalize_risk_level ⟨some "high", true⟩).risk_level = some "CRITICAL" :=
  (risk_level_critical_coupling ⟨some "high", true⟩).2.1 "high" rfl (by decide)

/-! ## Analysis reuse decision (storage/dynamodb_handler.py,
process_single_event, and the module surface of analysis/bedrock_analyzer.py)

`process_single_event` decides whether to reuse a stored analysis by
importing `DEFAULT_ANALYSIS_VALUES` from `analysis.bedrock_analyzer` inside
the try block that guards the existing-record check.  The embedding lists the
names the module actually defines at top level, so the import is a lookup
that can fail. -/

structure StoredAnalysisFields where
  requiredActions : String
  riskCategory : String
  impactAnalysis : String
deriving DecidableEq

/-- Names defined at module level by analysis/bedrock_analyzer.py: its
imports (json, logging, os, random, re, time, traceback, hashlib,
ClientError, the four BEDROCK_* config values) and its four functions.
`DEFAULT_ANALYSIS_VALUES` is not among them. -/
def bedrock_analyzer_module_names : List String :=
  ["json", "logging", "os", "random", "re", "time", "traceback", "hashlib",
   "ClientError", "BEDROCK_MODEL_ID", "BEDROCK_TEMPERATURE", "BEDROCK_TOP_P",
   "BEDROCK_MAX_TOKENS", "invoke_bedrock_with_advanced_retry",
   "generate_fallback_analysis", "analyze_event_with_bedrock",
   "categorize_analysis"]

/-- `from analysis.bedrock_analyzer import name`: returns the binding when the
module defines `name`, otherwise raises ImportError. -/
def import_from_bedrock_analyzer (name : String) : Except String Unit :=
  if bedrock_analyzer_module_names.contains name then Except.ok ()
  else Except.error "ImportError"

/-- The `skip_bedrock_analysis` decision of `process_single_event`
(dynamodb_handler.py lines 311-379): with no stored record the flag stays
False; with a stored record the code first executes
`from analysis.bedrock_analyzer import DEFAULT_ANALYSIS_VALUES` (line 337)
inside the surrounding try; when that import raises, the handler at line 378
logs a warning and leaves the flag False.  `valid_analysis_check` stands for
the lines 339-364 comparison that would run had the import succeeded. -/
def decide_skip_bedrock_analysis (existing : Option StoredAnalysisFields)
    (valid_analysis_check : StoredAnalysisFields → Bool) : Bool :=
  match existing with
  | none => false
  | some fields =>
    match import_from_bedrock_analyzer "DEFAULT_ANALYSIS_VALUES" with
    | Except.error _ => false
    | Except.ok _ => valid_analysis_check fields

/-- Whether `process_single_event` invokes `analyze_event_with_bedrock`
(dynamodb_handler.py lines 424-433): exactly when the skip flag is False. -/
def process_single_event_invokes_bedrock (existing : Option StoredAnalysisFields)
    (valid_analysis_check : StoredAnalysisFields → Bool) : Bool :=
  !(decide_skip_bedrock_analysis existing valid_analysis_check)

/-- C4 (code bug): for EVERY stored record — in particular one whose analysis
fields are populated, non-blank and different from any fallback — the import
of the undefined name DEFAULT_ANALYSIS_VALUES raises, the exception handler
swallows it, skip_bedrock_analysis stays False and the LLM analyzer is
invoked again, contrary to the claim and to the code's own
"skipping Bedrock re-analysis" branch, which is unreachable. -/
theorem reuse_never_fires (existing : StoredAnalysisFields)
    (valid_analysis_check : StoredAnalysisFields → Bool) :
    process_single_event_invokes_bedrock (some existing) valid_analysis_check = true ∧
    import_from_bedrock_analyzer "DEFAULT_ANALYSIS_VALUES" =
      Except.error "ImportError" := by
  constructor
  · rfl
  · rfl

/-! ## Dispatcher analyzer-call counting (processing/batch_processor.py,
utils/event_helpers.py, utils/sqs_helpers.py)

Events fetched from the Health API carry their affected accounts;
`expand_events_by_account` turns them into one item per (event, account)
pair.  `process_synchronously` and `send_events_to_sqs` then consume these
expanded items. -/

structure HealthEvent where
  arn : String
  eventTypeCategory : String
  affectedAccounts : List String
deriving DecidableEq

structure ExpandedItem where
  arn : String
  eventTypeCategory : String
  accountId : String
deriving DecidableEq

/-- Embedding of `expand_events_by_account` (event_helpers.py lines 130-159):
one copy of the event per affected account; an event with no affected
accounts is kept as a single item whose missing accountId reads as "N/A"
downstream (`item.get("accountId", "N/A")`). -/
def expand_events_by_account (events : List HealthEvent) : List ExpandedItem :=
  events.flatMap (fun e =>
    if e.affectedAccounts.isEmpty then [⟨e.arn, e.eventTypeCategory, "N/A"⟩]
    else e.affectedAccounts.map (fun a => ⟨e.arn, e.eventTypeCategory, a⟩))

/-- Number of `analyze_event_with_bedrock` invocations made by
`process_synchronously` (batch_processor.py lines 560-700): one per expanded
item that passes the category filter (when configured) and carries a valid
account id — the analyzer is called inside the per-item loop at line 644,
with no reuse check (assuming ample remaining Lambda time and no exception,
which only lower the count further). -/
def process_synchronously_bedrock_calls (items : List ExpandedItem)
    (event_categories_to_process : List String) : Nat :=
  (items.filter (fun item =>
    (event_categories_to_process.isEmpty ||
      event_categories_to_process.contains item.eventTypeCategory) &&
    item.accountId != "N/A" && item.accountId != "")).length

/-- Number of SQS messages sent by `send_events_to_sqs` (sqs_helpers.py lines
11-47): one `send_message` per element of `events_data` — the expanded
per-account items, not per-event batches (assuming no send fails). -/
def send_events_to_sqs_sent (events_data : List ExpandedItem) : Nat :=
  events_data.length

/-- The distinct event ARNs among the expanded items. -/
def unique_event_arns (items : List ExpandedItem) : List String :=
  (items.map (fun i => i.arn)).dedup

/-- C1 (code bug): one event with two affected accounts and no reuse: the
claim requires exactly one analyzer invocation, but `process_synchronously`
invokes the analyzer once per expanded (event, account) pair — twice here —
and the SQS dispatcher sends one single-event message per pair, each of which
triggers its own analysis in the worker; the call count grows with the total
number of (event, account) pairs. -/
theorem bedrock_calls_grow_with_accounts :
    process_synchronously_bedrock_calls
      (expand_events_by_account
        [⟨"arn:e1", "issue", ["111111111111", "222222222222"]⟩]) [] = 2 ∧
    send_events_to_sqs_sent
      (expand_events_by_account
        [⟨"arn:e1", "issue", ["111111111111", "222222222222"]⟩]) = 2 ∧
    (unique_event_arns (expand_events_by_account
        [⟨"arn:e1", "issue", ["111111111111", "222222222222"]⟩])).length = 1 ∧
    (2 : Nat) ≠ 1 := by
  refine ⟨by decide, by decide, by decide, by decide⟩

end CloudOps

namespace CloudOps

/-! ## SQS worker entry point (processing/sqs_processor.py)

`process_sqs_event` reads `event["Records"][0]`, parses the body and
dispatches on its shape.  External effects inside the handlers are summarized
by their only observable influence on the returned batch-item-failures
contract: per-account success in the batch loop (all exceptions inside the
loop are caught and skip only that account), success of
`process_single_event` on the legacy path, and exceptions escaping to the
outer handler. -/

inductive SqsBody
  | unparseable
  | unexpectedError
  | legacy (process_ok : Bool)
  | batchMsg (accounts : List (String × Bool))
deriving DecidableEq

structure SqsRecord where
  messageId : Option String
  body : SqsBody
deriving DecidableEq

structure LambdaEvent where
  records : List SqsRecord
deriving DecidableEq

structure BatchResult where
  batchItemFailures : List (Option String)
deriving DecidableEq

/-- Embedding of `process_batch_message` (sqs_processor.py lines 101-364): an
empty accounts array fails the message; otherwise each account is processed
independently (exceptions skip just that account) and the message fails only
when no account produced a record; on success the failure list is empty and
counters are deliberately not touched. -/
def process_batch_message (accounts : List (String × Bool))
    (message_id : Option String) : BatchResult :=
  if accounts.isEmpty then ⟨[message_id]⟩
  else if (accounts.filter (fun p => p.2)).isEmpty then ⟨[message_id]⟩
  else ⟨[]⟩

/-- Embedding of `process_sqs_event` (sqs_processor.py lines 17-98).  For an
input with no record, `event["Records"][0]` raises inside the try and the
except handler evaluates `event["Records"][0]` again, so the KeyError escapes
the function: modelled as `Except.error`.  With at least one record, every
path returns a batch-item-failures dict: an unparseable body (after the
escape-sequence repair), an exception escaping to the outer handler, a failed
legacy message, and an empty or fully-failed batch all report the message id;
otherwise the failure list is empty. -/
def process_sqs_event (event : LambdaEvent) : Except String BatchResult :=
  match event.records with
  | [] => Except.error "KeyError"
  | sqs_record :: _ =>
    match sqs_record.body with
    | SqsBody.unparseable => Except.ok ⟨[sqs_record.messageId]⟩
    | SqsBody.unexpectedError => Except.ok ⟨[sqs_record.messageId]⟩
    | SqsBody.legacy process_ok =>
        if process_ok then Except.ok ⟨[]⟩
        else Except.ok ⟨[sqs_record.messageId]⟩
    | SqsBody.batchMsg accounts =>
        Except.ok (process_batch_message accounts sqs_record.messageId)

end CloudOps

namespace CloudOps

/-- C10 counterexample: the claim says the worker returns a dict containing
`batchItemFailures` for every input event, never raising; but for an input
without a `Records` list both the try body and the except handler evaluate
`event["Records"][0]`, so the KeyError escapes and no dict is returned. -/
theorem sqs_totality_counterexample :
    process_sqs_event ⟨[]⟩ = Except.error "KeyError" ∧
    ∀ b : BatchResult, process_sqs_event ⟨[]⟩ ≠ Except.ok b := by
  constructor
  · rfl
  · intro b h
    simp [process_sqs_event] at h

/-- C10 amended: for every input event with at least one record the worker
returns a dict whose `batchItemFailures` list is either empty or exactly the
first record's message id; an unparseable body, an empty accounts array, and
an exception escaping the message handling each yield exactly the failing
message id; a batch in which at least one account is processed and stored
successfully yields the empty list. -/
theorem sqs_error_contract_amended (rec : SqsRecord) (rest : List SqsRecord) :
    (∃ b : BatchResult, process_sqs_event ⟨rec :: rest⟩ = Except.ok b ∧
      (b.batchItemFailures = [] ∨ b.batchItemFailures = [rec.messageId])) ∧
    (rec.body = SqsBody.unparseable →
      process_sqs_event ⟨rec :: rest⟩ = Except.ok ⟨[rec.messageId]⟩) ∧
    (∀ accounts, rec.body = SqsBody.batchMsg accounts → accounts = [] →
      process_sqs_event ⟨rec :: rest⟩ = Except.ok ⟨[rec.messageId]⟩) ∧
    (∀ accounts, rec.body = SqsBody.batchMsg accounts →
      (∃ p ∈ accounts, p.2 = true) →
      process_sqs_event ⟨rec :: rest⟩ = Except.ok ⟨[]⟩) ∧
    (rec.body = SqsBody.unexpectedError →
      process_sqs_event ⟨rec :: rest⟩ = Except.ok ⟨[rec.messageId]⟩) := by
  obtain ⟨mid, body⟩ := rec
  refine ⟨?_, ?_, ?_, ?_, ?_⟩
  · cases body with
    | unparseable => exact ⟨⟨[mid]⟩, rfl, Or.inr rfl⟩
    | unexpectedError => exact ⟨⟨[mid]⟩, rfl, Or.inr rfl⟩
    | legacy ok =>
        cases ok
        · exact ⟨⟨[mid]⟩, by simp [process_sqs_event], Or.inr rfl⟩
        · exact ⟨⟨[]⟩, by simp [process_sqs_event], Or.inl rfl⟩
    | batchMsg accounts =>
        refine ⟨process_batch_message accounts mid, rfl, ?_⟩
        unfold process_batch_message
        by_cases h1 : accounts.isEmpty
        · rw [if_pos h1]
          exact Or.inr rfl
        · rw [if_neg h1]
          by_cases h2 : (accounts.filter (fun p => p.2)).isEmpty
          · rw [if_pos h2]
            exact Or.inr rfl
          · rw [if_neg h2]
            exact Or.inl rfl
  · intro h
    cases h
    rfl
  · intro accounts h he
    cases h
    subst he
    rfl
  · intro accounts h hsucc
    cases h
    obtain ⟨p, hp, hps⟩ := hsucc
    have hne : ¬ accounts.isEmpty = true := by
      cases accounts with
      | nil => cases hp
      | cons x xs => simp
    have hfil : ¬ ((accounts.filter (fun p => p.2)).isEmpty = true) := by
      have hmem : p ∈ accounts.filter (fun p => p.2) :=
        List.mem_filter.mpr ⟨hp, hps⟩
      intro hempty
      rw [List.isEmpty_iff] at hempty
      rw [hempty] at hmem
      cases hmem
    simp [process_sqs_event, process_batch_message, hne, hfil]
  · intro h
    cases h
    rfl

/-- Witness for C10 amended: a batch message with one succeeding and one
failing account returns the empty failure list. -/
theorem sqs_error_contract_amended_witness :
    process_sqs_event ⟨[⟨some "mid-1",
      SqsBody.batchMsg [("111111111111", true), ("222222222222", false)]⟩]⟩ =
      Except.ok ⟨[]⟩ :=
  (sqs_error_contract_amended ⟨some "mid-1",
      SqsBody.batchMsg [("111111111111", true), ("222222222222", false)]⟩ []).2.2.2.1
    [("111111111111", true), ("222222222222", false)] rfl
    ⟨("111111111111", true), List.mem_cons_self _ _, rfl⟩

end CloudOps
